import Mathlib

/-!
Verification of the HidroBio price monitor core (multi-source price
extraction/normalization pipeline, time-series price store, report builder)
against its natural-language specification.  The Python source is shallowly
embedded: pure functions become Lean functions on `List Char` / `Int` / `ℚ`,
SQLite state becomes an explicit list of rows, network and DOM access become
explicit oracle parameters.  Machine integers are modelled as unbounded `Int`
(prices are small); Python `float` arithmetic on prices is modelled exactly
over `ℚ` (the values the claims exercise are exact in both).
-/

set_option maxRecDepth 4000

/-! ## Character and string helpers (Python semantics) -/

/-- Python `str.lower` restricted to the character set the repository touches:
ASCII letters plus the accented Latin uppercase letters appearing in Spanish
product names. -/
def pyLower (c : Char) : Char :=
  if 'A' ≤ c ∧ c ≤ 'Z' then Char.ofNat (c.toNat + 32)
  else if c = 'Á' then 'á'
  else if c = 'É' then 'é'
  else if c = 'Í' then 'í'
  else if c = 'Ó' then 'ó'
  else if c = 'Ú' then 'ú'
  else if c = 'Ü' then 'ü'
  else if c = 'Ñ' then 'ñ'
  else c

/-- Python `str.lower` on a whole string. -/
def lowerStr (s : String) : String := String.mk (s.data.map pyLower)

/-- Python substring test `sub in s` on character lists. -/
def containsSub (sub : List Char) : List Char → Bool
  | [] => sub.isEmpty
  | c :: tl => sub.isPrefixOf (c :: tl) || containsSub sub tl

/-- Python `str.replace(pat, "")` for a nonempty pattern, fuel-indexed so that
the recursion is structural (the fuel is initialised to the length of the
string, which suffices: every step consumes at least one character). -/
def replaceGo (pat : List Char) : Nat → List Char → List Char
  | 0, l => l
  | _ + 1, [] => []
  | fuel + 1, c :: cs =>
    if pat.isPrefixOf (c :: cs) then replaceGo pat fuel ((c :: cs).drop pat.length)
    else c :: replaceGo pat fuel cs

/-- Python `str.replace(pat, "")` (delete every occurrence, left to right,
non-overlapping). -/
def removeAll (pat : List Char) (l : List Char) : List Char :=
  replaceGo pat l.length l

/-- Python `str.strip()`. -/
def pyStrip (l : List Char) : List Char :=
  ((l.dropWhile Char.isWhitespace).reverse.dropWhile Char.isWhitespace).reverse

/-- A character admitted by the regex class `[\d.,]`. -/
def runChar (c : Char) : Bool := c.isDigit || c = '.' || c = ','

/-- Model of `re.search(r"[\d.,]+", s)`: the first maximal run of digits and
separator characters, or `none` when no such character occurs. -/
def findRun (l : List Char) : Option (List Char) :=
  let rest := l.dropWhile (fun c => !runChar c)
  if rest.isEmpty then none else some (rest.takeWhile runChar)

/-- Decimal value of a digit list (`digitsToNat [] = 0`). -/
def digitsToNat (l : List Char) : Nat :=
  l.foldl (fun a c => a * 10 + (c.toNat - 48)) 0

/-- Python `int(float(s))` for the strings this pipeline can produce (digits
and at most one decimal point): the value is the integer part, `none` when
`float` would raise (`""`, `"."`, two or more points).  `float(".5")` is `0.5`,
so an empty integer part with digits after the point yields `0`. -/
def pyIntFloat (l : List Char) : Option Int :=
  if (∀ c ∈ l, c.isDigit ∨ c = '.') ∧ l.count '.' ≤ 1 ∧ (∃ c ∈ l, c.isDigit) then
    some (digitsToNat (l.takeWhile (fun c => c != '.')) : Int)
  else none

/-! ## Price Text Normalizer (`BaseScraper._extract_price`) -/

/-- The currency-marker and per-unit-suffix removal plus `strip()` performed at
the top of `_extract_price`, in source order. -/
def cleanPriceText (l : List Char) : List Char :=
  pyStrip (removeAll "/u".data (removeAll "/un".data (removeAll "/kg".data
    (removeAll "G$".data (removeAll "₲".data (removeAll "Gs".data l))))))

/-- Separator disambiguation and final parse of `_extract_price`, applied to
the extracted digit/separator run. -/
def parseRun (r : List Char) : Option Int :=
  if r.contains '.' && r.contains ',' then
    pyIntFloat ((r.filter (fun c => c != '.')).map (fun c => if c = ',' then '.' else c))
  else if r.contains '.' then
    let parts := r.splitOn '.'
    if (parts.getLastD []).length = 3 then pyIntFloat (r.filter (fun c => c != '.'))
    else pyIntFloat r
  else if r.contains ',' then
    pyIntFloat (r.filter (fun c => c != ','))
  else
    pyIntFloat r

/-- Embedding of `BaseScraper._extract_price`: normalize a raw price string to an integer
number of guaraníes, `none` when no usable number is present. -/
def extract_price (s : String) : Option Int :=
  match findRun (cleanPriceText s.data) with
  | none => none
  | some r => parseRun r

/-- The spec's separator-precedence algorithm, §4.1, taken at its word: when
both separators occur, remove `.` and drop everything from `,` onward, then
parse the remaining digits (no digits left means no price).  The other three
branches repeat the code's. -/
def parseRunSpec (r : List Char) : Option Int :=
  if r.contains '.' && r.contains ',' then
    let t := (r.filter (fun c => c != '.')).takeWhile (fun c => c != ',')
    if t ≠ [] ∧ (∀ c ∈ t, c.isDigit) then some (digitsToNat t : Int) else none
  else if r.contains '.' then
    let parts := r.splitOn '.'
    if (parts.getLastD []).length = 3 then pyIntFloat (r.filter (fun c => c != '.'))
    else pyIntFloat r
  else if r.contains ',' then
    pyIntFloat (r.filter (fun c => c != ','))
  else
    pyIntFloat r

/-- The normalizer as the spec describes it, word for word. -/
def extractPriceSpec (s : String) : Option Int :=
  match findRun (cleanPriceText s.data) with
  | none => none
  | some r => parseRunSpec r

/-- The both-separators branch as the code actually behaves: remove `.`, drop
everything from the (single) `,` onward and take that digit prefix's value
(`0` when the prefix is empty), but no price at all when the run carries two
or more commas or no digit. -/
def parseRunAmended (r : List Char) : Option Int :=
  if r.contains '.' && r.contains ',' then
    let u := r.filter (fun c => c != '.')
    if u.count ',' = 1 ∧ (∃ c ∈ u, c.isDigit) then
      some (digitsToNat (u.takeWhile (fun c => c != ',')) : Int)
    else none
  else if r.contains '.' then
    let parts := r.splitOn '.'
    if (parts.getLastD []).length = 3 then pyIntFloat (r.filter (fun c => c != '.'))
    else pyIntFloat r
  else if r.contains ',' then
    pyIntFloat (r.filter (fun c => c != ','))
  else
    pyIntFloat r

/-- The amended spec algorithm for the whole normalizer. -/
def extractPriceAmended (s : String) : Option Int :=
  match findRun (cleanPriceText s.data) with
  | none => none
  | some r => parseRunAmended r


/-! ### The code's both-separators branch versus the spec's -/

/-- Every character of the comma-to-point image of a digit/comma list is a
digit or a point. -/
lemma c2d_digit_or_dot (u : List Char) (hu : ∀ c ∈ u, c.isDigit ∨ c = ',') :
    ∀ c ∈ u.map (fun c => if c = ',' then '.' else c), c.isDigit ∨ c = '.' := by
  intro c hc
  rcases List.mem_map.mp hc with ⟨a, ha, rfl⟩
  rcases hu a ha with h | h
  · have hne : a ≠ ',' := by
      rintro rfl
      exact absurd h (by decide)
    simp only [if_neg hne]
    exact Or.inl h
  · subst h
    simp

/-- Mapping `,` to `.` turns the comma count into the point count on a
digit/comma list. -/
lemma c2d_count (u : List Char) (hu : ∀ c ∈ u, c.isDigit ∨ c = ',') :
    (u.map (fun c => if c = ',' then '.' else c)).count '.' = u.count ',' := by
  induction u with
  | nil => rfl
  | cons a tl ih =>
    have ha := hu a (List.mem_cons_self a tl)
    have htl := ih (fun c hc => hu c (List.mem_cons_of_mem a hc))
    by_cases hc : a = ','
    · subst hc
      simp [List.count_cons, htl]
    · have hda : a ≠ '.' := by
        rcases ha with h | h
        · rintro rfl; exact absurd h (by decide)
        · exact absurd h hc
      simp [List.count_cons, hc, hda, htl]

/-- Mapping `,` to `.` preserves the presence of a digit. -/
lemma c2d_any (u : List Char) (_hu : ∀ c ∈ u, c.isDigit ∨ c = ',') :
    (∃ c ∈ u.map (fun c => if c = ',' then '.' else c), c.isDigit) ↔
      (∃ c ∈ u, c.isDigit) := by
  constructor
  · rintro ⟨c, hc, hd⟩
    rcases List.mem_map.mp hc with ⟨a, ha, rfl⟩
    by_cases hcm : a = ','
    · subst hcm
      simp at hd
    · refine ⟨a, ha, ?_⟩
      simpa [if_neg hcm] using hd
  · rintro ⟨a, ha, hd⟩
    have hne : a ≠ ',' := by
      rintro rfl; exact absurd hd (by decide)
    exact ⟨a, List.mem_map.mpr ⟨a, ha, by simp [if_neg hne]⟩, hd⟩

/-- On a digit/comma list, the prefix of the comma-to-point image before the
first point is the prefix before the first comma. -/
lemma c2d_take (u : List Char) (hu : ∀ c ∈ u, c.isDigit ∨ c = ',') :
    (u.map (fun c => if c = ',' then '.' else c)).takeWhile (fun c => c != '.') =
      u.takeWhile (fun c => c != ',') := by
  induction u with
  | nil => rfl
  | cons a tl ih =>
    have ha := hu a (List.mem_cons_self a tl)
    have htl := ih (fun c hc => hu c (List.mem_cons_of_mem a hc))
    by_cases hc : a = ','
    · subst hc
      simp [List.takeWhile_cons]
    · have hda : a ≠ '.' := by
        rcases ha with h | h
        · rintro rfl; exact absurd h (by decide)
        · exact absurd h hc
      simp [List.takeWhile_cons, hc, hda, htl]

/-- The code's both-separators computation (`replace(".", "")` then
`replace(",", ".")` then `int(float(...))`) on a digit/comma list containing a
comma: it succeeds exactly when the comma is unique and a digit exists, and
then returns the value of the digits before the comma. -/
lemma pyIntFloat_c2d (u : List Char) (hu : ∀ c ∈ u, c.isDigit ∨ c = ',')
    (hm : ',' ∈ u) :
    pyIntFloat (u.map (fun c => if c = ',' then '.' else c)) =
      if u.count ',' = 1 ∧ (∃ c ∈ u, c.isDigit) then
        some (digitsToNat (u.takeWhile (fun c => c != ',')) : Int)
      else none := by
  unfold pyIntFloat
  rw [c2d_take u hu, c2d_count u hu]
  have hone : 1 ≤ u.count ',' := List.count_pos_iff.mpr hm
  by_cases h1 : u.count ',' = 1
  · by_cases h2 : ∃ c ∈ u, c.isDigit
    · rw [if_pos ⟨c2d_digit_or_dot u hu, by omega, (c2d_any u hu).mpr h2⟩,
        if_pos ⟨h1, h2⟩]
    · rw [if_neg, if_neg]
      · exact fun h => absurd h.2 h2
      · exact fun h => absurd ((c2d_any u hu).mp h.2.2) h2
  · rw [if_neg, if_neg]
    · exact fun h => absurd h.1 h1
    · exact fun h => absurd h.2.1 (by omega)

/-- The code branch logic `parseRun` (the code) agrees with `parseRunAmended` on every
digit/separator run. -/
lemma parseRun_eq_amended (r : List Char) (h : ∀ c ∈ r, runChar c) :
    parseRun r = parseRunAmended r := by
  unfold parseRun parseRunAmended
  by_cases hb : (r.contains '.' && r.contains ',') = true
  · rw [if_pos hb, if_pos hb]
    have hcm : ',' ∈ r := by
      have := (Bool.and_eq_true _ _).mp hb |>.2
      simpa [List.contains] using this
    have hu : ∀ c ∈ r.filter (fun c => c != '.'), c.isDigit ∨ c = ',' := by
      intro c hc
      rcases List.mem_filter.mp hc with ⟨hcr, hcd⟩
      have hrc := h c hcr
      have hcne : c ≠ '.' := by simpa using hcd
      unfold runChar at hrc
      rcases Bool.or_eq_true _ _ |>.mp hrc with h1 | h1
      · rcases Bool.or_eq_true _ _ |>.mp h1 with h2 | h2
        · exact Or.inl h2
        · exact absurd (by simpa using h2) hcne
      · exact Or.inr (by simpa using h1)
    have hmem : ',' ∈ r.filter (fun c => c != '.') :=
      List.mem_filter.mpr ⟨hcm, by decide⟩
    exact pyIntFloat_c2d _ hu hmem
  · rw [if_neg hb, if_neg hb]

/-- Characters of the run found by `re.search(r"[\d.,]+", …)` are digits or
separators. -/
lemma findRun_runChar {l r : List Char} (h : findRun l = some r) :
    ∀ c ∈ r, runChar c := by
  unfold findRun at h
  by_cases he : (l.dropWhile (fun c => !runChar c)).isEmpty
  · simp [he] at h
  · simp only [he, if_neg, Bool.false_eq_true, not_false_iff, if_false,
      Option.some.injEq] at h
    subst h
    intro c hc
    exact List.mem_takeWhile_imp hc

/-- The code's normalizer coincides with the amended spec algorithm on every
input string. -/
lemma extract_price_eq_amended (s : String) :
    extract_price s = extractPriceAmended s := by
  unfold extract_price extractPriceAmended
  cases hfr : findRun (cleanPriceText s.data) with
  | none => rfl
  | some r => exact parseRun_eq_amended r (findRun_runChar hfr)

/-! ## Produce Classifier (`BaseScraper._is_fresh_produce`) -/

/-- The processed-food exclusion terms, verbatim from the source. -/
def exclude_terms : List String :=
  ["extracto", "pure", "puré", "salsa", "pelado", "enlatado",
   "conserva", "lata", "botella", "tetra", "sachet", "sobre",
   "sardina", "atun", "atún", "ketchup", "pasta", "pulpa"]

/-- The fresh-produce inclusion terms, verbatim from the source. -/
def include_terms : List String :=
  ["por kg", "por kilo", "x kg", "/kg", "kg x", "1 kg",
   "fresco", "bandeja", "granel", "x 1"]

/-- Embedding of `BaseScraper._is_fresh_produce`: lowercase the display name, return false
on any exclusion term, true on any inclusion term, true when "kg" occurs, and
true by default. -/
def is_fresh_produce (name : String) : Bool :=
  let nl := (lowerStr name).data
  if exclude_terms.any (fun t => containsSub t.data nl) then false
  else if include_terms.any (fun t => containsSub t.data nl) then true
  else if containsSub "kg".data nl then true
  else true

/-- One rule of an ordered heuristic chain: a test on the name and the verdict
returned when the test fires. -/
structure ClassifierRule where
  applies : String → Bool
  verdict : Bool

/-- Ordered rule list evaluated top-to-bottom, first match wins (the chains of
§4.2/§9 of the spec); an exhausted list defaults to true. -/
def evalRules : List ClassifierRule → String → Bool
  | [], _ => true
  | r :: rs, n => if r.applies n then r.verdict else evalRules rs n

/-- The classifier policy of spec §4.2 as an ordered rule list: exclusion →
false, inclusion → true, weight-unit token → true, default → true. -/
def produceRules : List ClassifierRule :=
  [⟨fun n => exclude_terms.any (fun t => containsSub t.data (lowerStr n).data), false⟩,
   ⟨fun n => include_terms.any (fun t => containsSub t.data (lowerStr n).data), true⟩,
   ⟨fun n => containsSub "kg".data (lowerStr n).data, true⟩,
   ⟨fun _ => true, true⟩]

/-- The one-predicate reading of the classifier: fresh exactly when no
processed-food exclusion term occurs in the lowercased name. -/
def freshSimple (name : String) : Bool :=
  !(exclude_terms.any (fun t => containsSub t.data (lowerStr name).data))


/-! ## Price Store (`PriceDatabase`) -/

/-- One persisted price row (`prices` table).  `raw` models the nullable
`product_name_raw` column.  The integer `date` is a calendar-day number. -/
structure PriceFact where
  date : Int
  supermarket : String
  product : String
  raw : Option String
  price : Int
  unit : String
deriving DecidableEq

/-- The `UNIQUE(date, supermarket, product, product_name_raw)` constraint,
with SQLite semantics: a NULL `product_name_raw` never collides. -/
def sameKey (g f : PriceFact) : Bool :=
  g.date == f.date && g.supermarket == f.supermarket && g.product == f.product &&
    (match g.raw, f.raw with
     | some a, some b => a == b
     | _, _ => false)

/-- Embedding of `PriceDatabase.save_price` as written: `INSERT OR REPLACE`, which deletes
any row conflicting on the natural key and appends the new row (the
`except sqlite3.IntegrityError: pass` handler is dead code under OR REPLACE). -/
def save_price (db : List PriceFact) (f : PriceFact) : List PriceFact :=
  db.filter (fun g => !sameKey g f) ++ [f]

/-- The save operation as spec §4.7 words it — "idempotent insert …; a key
collision is silently ignored, not an error", i.e. `INSERT OR IGNORE`:
on collision the stored row is left untouched. -/
def saveIgnoreSpec (db : List PriceFact) (f : PriceFact) : List PriceFact :=
  if db.any (fun g => sameKey g f) then db else db ++ [f]

/-! ## Price Store analytics (`get_price_trend`, `get_previous_price`) -/

/-- The rows selected by `WHERE product = ? AND date BETWEEN ? AND ?` with
`start = today - days` (both bounds inclusive). -/
def windowRows (db : List PriceFact) (product : String) (today days : Int) : List PriceFact :=
  db.filter (fun f => f.product == product && today - days ≤ f.date && f.date ≤ today)

/-- Distinct elements of an integer list, first occurrences kept. -/
def dedupIntsAux : List Int → List Int → List Int
  | [], _ => []
  | d :: rest, seen =>
    if d ∈ seen then dedupIntsAux rest seen else d :: dedupIntsAux rest (d :: seen)

/-- Insertion step of an ascending insertion sort. -/
def insertSorted (x : Int) : List Int → List Int
  | [] => [x]
  | y :: ys => if x ≤ y then x :: y :: ys else y :: insertSorted x ys

/-- Ascending insertion sort on integers. -/
def sortInts (l : List Int) : List Int := l.foldr insertSorted []

/-- Model of `GROUP BY date ORDER BY date ASC`: the distinct dates of the selected
rows, ascending. -/
def windowDates (db : List PriceFact) (product : String) (today days : Int) : List Int :=
  sortInts (dedupIntsAux ((windowRows db product today days).map (fun f => f.date)) [])

/-- Model of `AVG(price_guaranies)` for one date group, as an exact rational. -/
def dateAvg (db : List PriceFact) (product : String) (today days d : Int) : ℚ :=
  let ps := ((windowRows db product today days).filter (fun f => f.date == d)).map
    (fun f => f.price)
  ((ps.foldl (· + ·) 0 : Int) : ℚ) / (ps.length : ℚ)

/-- Python `int(x)` on a rational: truncation toward zero. -/
def pyInt (x : ℚ) : Int := if 0 ≤ x then ⌊x⌋ else -⌊-x⌋

/-- Python `round(x)` to an integer: round half to even. -/
def roundHalfEven (x : ℚ) : Int :=
  let f := ⌊x⌋
  if x - f < 1/2 then f
  else if 1/2 < x - f then f + 1
  else if Even f then f else f + 1

/-- Python `round(x, 1)`. -/
def pyRound1 (x : ℚ) : ℚ := (roundHalfEven (x * 10) : ℚ) / 10

/-- The dictionary `get_price_trend` returns; for `insufficient_data` the
first/last keys are absent (`none`). -/
structure TrendResult where
  trend : String
  change_percent : ℚ
  first_price : Option Int
  last_price : Option Int
deriving DecidableEq

/-- Embedding of `PriceDatabase.get_price_trend`: per-date averages over the trailing
window, `insufficient_data` under two distinct dates, else the percentage
change from the earliest to the latest date-average, classified
up / down / stable at the ±2 thresholds. -/
def get_price_trend (db : List PriceFact) (product : String) (today days : Int) :
    TrendResult :=
  match windowDates db product today days with
  | [] => ⟨"insufficient_data", 0, none, none⟩
  | [_] => ⟨"insufficient_data", 0, none, none⟩
  | d1 :: d2 :: rest =>
    let firstA := dateAvg db product today days d1
    let lastA := dateAvg db product today days ((d2 :: rest).getLastD d2)
    let change := ((lastA - firstA) / firstA) * 100
    ⟨if change > 2 then "up" else if change < -2 then "down" else "stable",
     pyRound1 change, some (pyInt firstA), some (pyInt lastA)⟩

/-- Embedding of `PriceDatabase.get_previous_price`: the price on the most recent date
strictly before today for the (supermarket, product) pair. -/
def get_previous_price (db : List PriceFact) (supermarket product : String)
    (today : Int) : Option Int :=
  let cand := db.filter (fun f =>
    f.supermarket == supermarket && f.product == product && f.date < today)
  match sortInts (cand.map (fun f => f.date)) with
  | [] => none
  | d :: ds =>
    ((cand.filter (fun f => f.date == (d :: ds).getLastD d)).map
      (fun f => f.price)).head?

/-! ## Report Data Builder (`PriceMonitor._generate_report_data`) -/

/-- One row of `get_today_prices` output as the report builder consumes it. -/
structure PriceRow where
  supermarket : String
  product : String
  price : Int
  raw : Option String
  unit : String
deriving DecidableEq

/-- One step of the dedup loop: Python dict update `seen_supermarkets[sm] = p`
guarded by `sm not in seen or p.price < seen[sm].price` — the slot keeps its
insertion position, its value is replaced only on a strictly lower price. -/
def updMin : List PriceRow → PriceRow → List PriceRow
  | [], p => [p]
  | q :: qs, p =>
    if q.supermarket = p.supermarket then
      (if p.price < q.price then p else q) :: qs
    else q :: updMin qs p

/-- The per-product dedup of `_generate_report_data`: one row per supermarket,
lowest price wins, insertion order of first occurrence (Python dict order). -/
def dedupBySupermarket (rows : List PriceRow) : List PriceRow :=
  rows.foldl updMin []

/-- Minimum of an integer list (`none` for the empty list). -/
def listMin : List Int → Option Int
  | [] => none
  | x :: xs =>
    match listMin xs with
    | none => some x
    | some m => some (min x m)

/-- Model of `int(statistics.median(values))`: sort, take the middle element for odd
length, the truncated mean of the two middles for even length (`0` for the
empty list, which the builder never reaches — it skips products with no
facts). -/
def pyMedianInt (l : List Int) : Int :=
  let s := sortInts l
  match s with
  | [] => 0
  | _ :: _ =>
    if s.length % 2 = 1 then s.getD (s.length / 2) 0
    else pyInt (((s.getD (s.length / 2 - 1) 0 + s.getD (s.length / 2) 0 : Int) : ℚ) / 2)

/-- The median the report publishes for one product: the integer median of
the deduplicated per-source prices. -/
def reportMedian (rows : List PriceRow) : Int :=
  pyMedianInt ((dedupBySupermarket rows).map (fun p => p.price))

/-! ## Alerts (`_generate_report_data`, alert block) -/

/-- The AlertEvent dictionary. -/
structure AlertEvent where
  product : String
  supermarket : String
  change_percent : ℚ
  previous_price : Int
  current_price : Int
deriving DecidableEq

/-- The alert check for one deduplicated (source, product) price: skipped when
no previous price exists (or it is 0, falsy in Python); otherwise the alert is
emitted exactly when `|change| >= threshold`, carrying the unrounded
percentage change. -/
def emitAlert (threshold : ℚ) (product supermarket : String)
    (previous : Option Int) (current : Int) : Option AlertEvent :=
  match previous with
  | none => none
  | some pv =>
    if pv = 0 then none
    else if |(((current - pv : Int) : ℚ) / (pv : ℚ)) * 100| ≥ threshold then
      some ⟨product, supermarket, (((current - pv : Int) : ℚ) / (pv : ℚ)) * 100,
        pv, current⟩
    else none

/-! ## Source Adapter (`BaseScraper.search`) -/

/-- A candidate listing as the extractors emit it. -/
structure CandidateListing where
  name : String
  price : Int
  unit : String
  url : String
  supermarket : String
deriving DecidableEq

/-- Embedding of `BaseScraper.search` with the outside world as oracles: `fetch` is the
outcome of the network round-trip (`Except` error = timeout / non-2xx, both
raised by `requests` and caught here), `parse` the `_parse_products` call
(`Except` error = any parse exception).  Disabled adapters return `[]` before
the fetch oracle is consulted. -/
def searchAdapter {Doc : Type} (enabled : Bool) (fetch : Except String Doc)
    (parse : Doc → Except String (List CandidateListing)) : List CandidateListing :=
  if !enabled then []
  else
    match fetch with
    | .error _ => []
    | .ok doc =>
      match parse doc with
      | .error _ => []
      | .ok products => products

/-! ## Generic extractor (`GenericScraper._extract_product_data`) -/

/-- A descendant tag of one product container, as seen through the
BeautifulSoup calls the generic extractor makes: tag name, class attribute,
stripped text, itemprop attribute. -/
structure GTag where
  tag : String
  cls : String
  text : String
  itemprop : String
deriving DecidableEq

/-- One candidate product container: its descendant tags in document order,
the title of its first `<a title=…>` (if any), the href of its first
`<a href=…>` (if any), and its flattened text. -/
structure GContainer where
  tags : List GTag
  linkTitle : Option String
  linkHref : Option String
  fullText : String
deriving DecidableEq

/-- Model of `element.find(tagName, class_=re.compile(pat, re.I))` over the modelled
tag list: the first descendant with that tag name whose class matches. -/
def findTag (c : GContainer) (tagName : String) (clsPred : String → Bool) :
    Option GTag :=
  c.tags.find? (fun g => g.tag == tagName && clsPred g.cls)

/-- A class attribute matching `re.compile(r"name|title", re.I)`. -/
def clsNameTitle (cls : String) : Bool :=
  containsSub "name".data (lowerStr cls).data ||
    containsSub "title".data (lowerStr cls).data

/-- A class attribute matching one of `price`, `valor`, `costo`
(case-insensitively). -/
def clsPrice (pat : String) (cls : String) : Bool :=
  containsSub pat.data (lowerStr cls).data

/-- The `name_patterns` list of `_extract_product_data`. -/
def namePatterns : List (String × (String → Bool)) :=
  [("h1", fun _ => true), ("h2", fun _ => true), ("h3", fun _ => true),
   ("h4", fun _ => true), ("a", clsNameTitle), ("span", clsNameTitle),
   ("p", clsNameTitle), ("div", clsNameTitle)]

/-- The name-pattern loop: `name` is overwritten by every matching pattern and
the loop breaks only once a name longer than 3 characters is found — a final
short match is kept. -/
def findName (c : GContainer) : List (String × (String → Bool)) →
    Option String → Option String
  | [], cur => cur
  | (t, pred) :: rest, cur =>
    match findTag c t pred with
    | none => findName c rest cur
    | some g =>
      if g.text.length > 3 then some g.text else findName c rest (some g.text)

/-- Python truthiness of the `name` variable. -/
def truthyStr : Option String → Option String
  | none => none
  | some s => if s = "" then none else some s

/-- Python truthiness of the `price` variable (`0` is falsy). -/
def truthyPrice : Option Int → Option Int
  | none => none
  | some p => if p = 0 then none else some p

/-- The structured price loop: for each class pattern, for each of
`span, div, p, strong`, the first extracted truthy price wins. -/
def findStructuredPrice (c : GContainer) : Option Int :=
  [clsPrice "price", clsPrice "valor", clsPrice "costo"].foldl
    (fun acc pat =>
      match acc with
      | some p => some p
      | none =>
        ["span", "div", "p", "strong"].foldl
          (fun acc2 t =>
            match acc2 with
            | some p => some p
            | none =>
              match findTag c t pat with
              | none => none
              | some g => truthyPrice (extract_price g.text))
          none)
    none

/-- The itemprop=price pattern of the structured loop, which the class-based
model above cannot express: first `span/div/p/strong` with `itemprop="price"`. -/
def findItempropPrice (c : GContainer) : Option Int :=
  ["span", "div", "p", "strong"].foldl
    (fun acc t =>
      match acc with
      | some p => some p
      | none =>
        match c.tags.find? (fun g => g.tag == t && g.itemprop == "price") with
        | none => none
        | some g => truthyPrice (extract_price g.text))
    none

/-- Model of `re.search(r"[Gs₲G\$]\s*[\d.,]+", text)`: first position holding a
currency-marker character followed by optional whitespace and a nonempty
digit/separator run; returns the matched group. -/
def searchMarkerPrice : List Char → Option (List Char)
  | [] => none
  | c :: rest =>
    if c = 'G' ∨ c = 's' ∨ c = '₲' ∨ c = '$' then
      let ws := rest.takeWhile Char.isWhitespace
      let run := (rest.dropWhile Char.isWhitespace).takeWhile runChar
      if run.isEmpty then searchMarkerPrice rest
      else some (c :: (ws ++ run))
    else searchMarkerPrice rest

/-- Python `str.rstrip("/")`. -/
def rstripSlash (s : String) : String :=
  String.mk (s.data.reverse.dropWhile (fun c => c = '/')).reverse

/-- Python `str.lstrip("/")`. -/
def lstripSlash (s : String) : String :=
  String.mk (s.data.dropWhile (fun c => c = '/'))

/-- URL resolution at the end of `_extract_product_data`. -/
def resolveUrl (baseUrl : String) (href : Option String) : String :=
  match href with
  | none => ""
  | some u =>
    if u ≠ "" ∧ ¬ ("http".data.isPrefixOf u.data) then
      rstripSlash baseUrl ++ "/" ++ lstripSlash u
    else u

/-- The name `_extract_product_data` ends up with: the pattern-loop result,
overridden by the title attribute of the first `<a title=…>` when the loop
left `name` unset or empty (`if not name`). -/
def discoveredName (c : GContainer) : Option String :=
  match truthyStr (findName c namePatterns none) with
  | some s => some s
  | none =>
    match c.linkTitle with
    | some t => some t
    | none => findName c namePatterns none

/-- The price `_extract_product_data` ends up with: the structured class
patterns, then `itemprop="price"`, then the currency-marker scan of the
container text (`if not price` between the stages). -/
def discoveredPrice (c : GContainer) : Option Int :=
  match
    (match findStructuredPrice c with
     | some p => some p
     | none => findItempropPrice c) with
  | some p => some p
  | none =>
    match searchMarkerPrice c.fullText.data with
    | none => none
    | some grp => extract_price (String.mk grp)

/-- Embedding of `GenericScraper._extract_product_data` for one container: name discovery
(pattern loop, then title-attribute fallback), price discovery (structured
fields, then itemprop, then currency-marker text scan), URL resolution;
`none` when no truthy name or no truthy price results. -/
def extract_product_data (baseUrl selfName : String) (c : GContainer) :
    Option CandidateListing :=
  match truthyStr (discoveredName c) with
  | none => none
  | some nm =>
    match truthyPrice (discoveredPrice c) with
    | none => none
    | some pr => some ⟨nm, pr, "kg", resolveUrl baseUrl c.linkHref, selfName⟩

/-- Embedding of `GenericScraper._parse_products` after container discovery: extract each
container, keep listings the Produce Classifier accepts; a failing container
is skipped. -/
def parse_products (baseUrl selfName : String) (containers : List GContainer) :
    List CandidateListing :=
  containers.filterMap (fun c =>
    match extract_product_data baseUrl selfName c with
    | none => none
    | some p => if is_fresh_produce p.name then some p else none)

/-! ## Product Matcher and Collection Pipeline (`PriceMonitor`) -/

/-- A configured product: `search_terms` is `none` when the config key is
absent (Python `dict.get`), `some []` when present but empty. -/
structure ConfigProduct where
  name : String
  search_terms : Option (List String)
  unit : Option String
deriving DecidableEq

/-- Embedding of `PriceMonitor._matches_product`: `product.get("search_terms", [])`, then
case-insensitive substring containment, first match wins. -/
def matches_product (raw_name : String) (p : ConfigProduct) : Bool :=
  let raw_lower := (lowerStr raw_name).data
  (match p.search_terms with
   | none => []
   | some ts => ts).any (fun t => containsSub (lowerStr t).data raw_lower)

/-- The search terms `_scrape_all_prices` iterates:
`product.get("search_terms", [product_name.lower()])`. -/
def termsFor (p : ConfigProduct) : List String :=
  match p.search_terms with
  | none => [lowerStr p.name]
  | some ts => ts

/-- An observed (source, product) price fact produced by the pipeline. -/
structure ObservedFact where
  supermarket : String
  product : String
  product_name_raw : String
  price : Int
  unit : String
deriving DecidableEq

/-- The per-product inner loops of `_scrape_all_prices` for one source: every
search term is queried (the `results` oracle maps a term to the adapter's
listings) and every matching listing becomes a fact. -/
def collectFacts (results : String → List CandidateListing) (sm : String)
    (p : ConfigProduct) : List ObservedFact :=
  (termsFor p).flatMap (fun term =>
    (results term).filterMap (fun r =>
      if matches_product r.name p then
        some ⟨sm, p.name, r.name, r.price, p.unit.getD "kg"⟩
      else none))

/-! ## Helper lemmas shared between claim theorems -/

/-- The classifier equals the pure exclusion test: every branch after the
exclusion check returns true. -/
lemma is_fresh_cases (n : String) :
    is_fresh_produce n =
      !(exclude_terms.any (fun t => containsSub t.data (lowerStr n).data)) := by
  simp only [is_fresh_produce]
  by_cases h : exclude_terms.any (fun t => containsSub t.data (lowerStr n).data) = true
  · simp [h]
  · simp [h]

/-- A truthy name is nonempty. -/
lemma truthyStr_ne {o : Option String} {s : String} (h : truthyStr o = some s) :
    s ≠ "" := by
  match o with
  | none => cases h
  | some t =>
    change (if t = "" then none else some t) = some s at h
    by_cases ht : t = ""
    · rw [if_pos ht] at h; cases h
    · rw [if_neg ht] at h
      cases h
      exact ht

/-- Every listing the generic extractor emits carries the (nonempty) truthy
name of its container. -/
lemma extract_name_ne_empty {baseUrl selfName : String} {c : GContainer}
    {p : CandidateListing} (h : extract_product_data baseUrl selfName c = some p) :
    p.name ≠ "" := by
  unfold extract_product_data at h
  cases hn : truthyStr (discoveredName c) with
  | none => rw [hn] at h; cases h
  | some nm =>
    rw [hn] at h
    cases hp : truthyPrice (discoveredPrice c) with
    | none => rw [hp] at h; cases h
    | some pr =>
      rw [hp] at h
      cases h
      exact truthyStr_ne hn

/-- A container whose only name-bearing descendant is a `div` with class
`product-name` and two-character text, next to a structured price field. -/
def shortNameContainer : GContainer :=
  ⟨[⟨"div", "product-name", "ab", ""⟩, ⟨"span", "price", "Gs 17.950", ""⟩],
   none, none, ""⟩

/-! ## Claim theorems -/

/-- Claim C1 (code_bug): the spec says a natural-key collision is silently
ignored and the stored price is never updated in place, and the dead
`except IntegrityError: pass` handler with its "Duplicate entry, ignore"
comment shows that was the intent — but `INSERT OR REPLACE` replaces the
stored row: re-saving the key with price 16500 over a stored 20250 leaves
16500, where the spec-intended `INSERT OR IGNORE` leaves 20250.  The
remaining conjuncts record the parts of the claim the code does satisfy:
saving the identical fact twice leaves one row, and two facts differing only
in `raw` leave two rows. -/
theorem save_price_updates_in_place :
    (save_price (save_price []
        ⟨0, "Stock", "Tomate Lisa", some "Tomate Lisa 1kg", 20250, "kg"⟩)
        ⟨0, "Stock", "Tomate Lisa", some "Tomate Lisa 1kg", 16500, "kg"⟩).map
          (fun f => f.price) = [16500] ∧
    (saveIgnoreSpec (saveIgnoreSpec []
        ⟨0, "Stock", "Tomate Lisa", some "Tomate Lisa 1kg", 20250, "kg"⟩)
        ⟨0, "Stock", "Tomate Lisa", some "Tomate Lisa 1kg", 16500, "kg"⟩).map
          (fun f => f.price) = [20250] ∧
    (save_price (save_price []
        ⟨0, "Stock", "Tomate Lisa", some "Tomate Lisa 1kg", 20250, "kg"⟩)
        ⟨0, "Stock", "Tomate Lisa", some "Tomate Lisa 1kg", 20250, "kg"⟩) =
      [⟨0, "Stock", "Tomate Lisa", some "Tomate Lisa 1kg", 20250, "kg"⟩] ∧
    (save_price (save_price []
        ⟨0, "Stock", "Tomate Lisa", some "Tomate Lisa 1kg", 20250, "kg"⟩)
        ⟨0, "Stock", "Tomate Lisa", some "Tomate Lisa Extra", 16500, "kg"⟩).length
      = 2 := by
  decide

/-- Claim C2, counterexample: on `"1.2,3,4"` the code returns no price while
the spec's separator algorithm (remove `.`, drop from `,` onward) returns 12
— the code does not apply the spec's both-separators rule on every input. -/
theorem normalizer_spec_counterexample :
    extract_price "1.2,3,4" = none ∧ extractPriceSpec "1.2,3,4" = some 12 := by
  decide

/-- Claim C2 (corrected): the normalizer follows the spec's separator
precedence except in the both-separators branch, where the code converts `,`
to a decimal point and truncates: the result is the digit prefix before the
comma only when the run holds exactly one `,` and at least one digit (0 for
an empty prefix), and no price otherwise; the single-`.`-with-3-digit-tail,
only-`,` and digits-only branches and the four concrete evaluations hold as
the spec states them. -/
theorem normalizer_amended :
    (∀ s, extract_price s = extractPriceAmended s) ∧
    extract_price "₲ 17.950" = some 17950 ∧
    extract_price "Gs 1.234,56" = some 1234 ∧
    extract_price "₲17,950" = some 17950 ∧
    extract_price "no digits here" = none :=
  ⟨extract_price_eq_amended, by decide, by decide, by decide, by decide⟩

/-- Claim C6 (confirmed): the classifier is the ordered rule list of §4.2
evaluated top-to-bottom with first match winning — exclusion term → false,
inclusion term → true, weight-unit token → true, default → true — and the two
spec examples evaluate as stated. -/
theorem classifier_rule_chain :
    (∀ n, is_fresh_produce n = evalRules produceRules n) ∧
    is_fresh_produce "Tomate frito en lata" = false ∧
    is_fresh_produce "Tomate Lisa x kg" = true := by
  refine ⟨fun n => ?_, by decide, by decide⟩
  rw [is_fresh_cases]
  simp only [evalRules, produceRules]
  by_cases h : exclude_terms.any (fun t => containsSub t.data (lowerStr n).data) = true
  · simp [h]
  · simp [h]

/-- Claim C9 (confirmed): the classifier is extensionally the single
predicate "no processed-food exclusion term occurs in the lowercased name";
inclusion and weight-unit rules never change the outcome. -/
theorem classifier_refines_to_exclusion :
    ∀ n, is_fresh_produce n = freshSimple n := fun n => by
  rw [is_fresh_cases]; rfl

/-- Claim C7 (confirmed): a disabled adapter returns an empty list without
consulting the fetch or parse oracles; a transport error or a parse error
yields the empty list; a successful parse is passed through — the search
boundary never raises and always yields a list of candidate listings. -/
theorem adapter_search_total :
    (∀ (Doc : Type) (fa fb : Except String Doc) pa pb,
        searchAdapter false fa pa = ([] : List CandidateListing) ∧
        searchAdapter false fa pa = searchAdapter false fb pb) ∧
    (∀ (Doc : Type) (e : String)
        (p : Doc → Except String (List CandidateListing)),
        searchAdapter true (.error e) p = []) ∧
    (∀ (Doc : Type) (d : Doc) (p : Doc → Except String (List CandidateListing))
        (e : String), p d = .error e → searchAdapter true (.ok d) p = []) ∧
    (∀ (Doc : Type) (d : Doc) (p : Doc → Except String (List CandidateListing))
        (l : List CandidateListing), p d = .ok l →
        searchAdapter true (.ok d) p = l) := by
  refine ⟨fun _ _ _ _ _ => ⟨rfl, rfl⟩, fun _ _ _ => rfl, ?_, ?_⟩
  · intro Doc d p e h
    simp [searchAdapter, h]
  · intro Doc d p l h
    simp [searchAdapter, h]

/-- Witness for C7 at concrete oracles: a parse failure on a unit document
yields the empty list. -/
theorem adapter_search_total_witness :
    searchAdapter true (Except.ok ()) (fun _ : Unit => Except.error "parse")
      = ([] : List CandidateListing) :=
  adapter_search_total.2.2.1 Unit () (fun _ => Except.error "parse") "parse" rfl

/-- Claim C8, counterexample: the generic extractor emits a listing whose
name `"ab"` has length 2 — the 3-character minimum is not enforced (the
`len(name) > 3` test only breaks the pattern loop early; a final short match
is kept). -/
theorem generic_short_name_counterexample :
    parse_products "" "X" [shortNameContainer] =
      [⟨"ab", 17950, "kg", "", "X"⟩] ∧ ¬ (3 ≤ ("ab" : String).length) := by
  decide

/-- Claim C8 (corrected): the per-container name discovery guarantees only a
nonempty name, not a 3-character minimum — the length test (which actually
requires length > 3) merely stops the pattern search early, and a shorter
name from the last matching pattern (or any title attribute) is emitted, as
the concrete container with name "ab" shows. -/
theorem generic_name_nonempty :
    (∀ (baseUrl selfName : String) (containers : List GContainer)
        (l : CandidateListing), l ∈ parse_products baseUrl selfName containers →
        l.name ≠ "") ∧
    (parse_products "" "X" [shortNameContainer]).map (fun l => l.name) = ["ab"] := by
  refine ⟨?_, by decide⟩
  intro baseUrl selfName containers l h
  rcases List.mem_filterMap.mp h with ⟨c, _, hc⟩
  cases hx : extract_product_data baseUrl selfName c with
  | none => rw [hx] at hc; cases hc
  | some p =>
    rw [hx] at hc
    change (if is_fresh_produce p.name = true then some p else none) = some l at hc
    by_cases hf : is_fresh_produce p.name = true
    · rw [if_pos hf] at hc
      cases hc
      exact extract_name_ne_empty hx
    · rw [if_neg hf] at hc
      cases hc

/-- Witness for C8's amended theorem at the concrete container. -/
theorem generic_name_nonempty_witness :
    (⟨"ab", 17950, "kg", "", "X"⟩ : CandidateListing).name ≠ "" :=
  generic_name_nonempty.1 "" "X" [shortNameContainer] _ (by decide)

/-- Claim C10, counterexample: for a product whose `search_terms` entry is
present but empty, the pipeline iterates no search terms at all — it does not
fall back to the lowercased canonical name (`dict.get` finds the empty
list). -/
theorem pipeline_empty_terms_counterexample :
    termsFor ⟨"Tomate", some [], none⟩ = [] ∧
    termsFor ⟨"Tomate", some [], none⟩ ≠ [lowerStr "Tomate"] := by
  decide

/-- Claim C10 (corrected): with no `search_terms` entry the matcher rejects
every name while the pipeline still queries with the lowercased canonical
name as the default term, so searches occur but no fact is recorded; with an
explicitly empty term list the matcher still rejects everything but the
pipeline performs no searches at all — in both cases no fact is recorded. -/
theorem pipeline_no_terms_amended :
    (∀ p : ConfigProduct, p.search_terms = none →
        termsFor p = [lowerStr p.name] ∧
        (∀ raw, matches_product raw p = false) ∧
        (∀ results sm, collectFacts results sm p = [])) ∧
    (∀ p : ConfigProduct, p.search_terms = some [] →
        termsFor p = [] ∧
        (∀ raw, matches_product raw p = false) ∧
        (∀ results sm, collectFacts results sm p = [])) := by
  constructor
  · intro p hp
    have hm : ∀ raw, matches_product raw p = false := fun raw => by
      simp [matches_product, hp]
    refine ⟨by simp [termsFor, hp], hm, fun results sm => ?_⟩
    simp [collectFacts, termsFor, hp, hm]
  · intro p hp
    have hm : ∀ raw, matches_product raw p = false := fun raw => by
      simp [matches_product, hp]
    refine ⟨by simp [termsFor, hp], hm, fun results sm => ?_⟩
    simp [collectFacts, termsFor, hp]

/-- Witness for C10's amended theorem at concrete products. -/
theorem pipeline_no_terms_witness :
    termsFor ⟨"Tomate", none, none⟩ = ["tomate"] ∧
    matches_product "Tomate Lisa kg" ⟨"Tomate", some [], none⟩ = false ∧
    collectFacts (fun _ => [⟨"Tomate Lisa kg", 17950, "kg", "", "Stock"⟩])
      "Stock" ⟨"Tomate", none, none⟩ = [] :=
  ⟨(pipeline_no_terms_amended.1 ⟨"Tomate", none, none⟩ rfl).1.trans (by decide),
   (pipeline_no_terms_amended.2 ⟨"Tomate", some [], none⟩ rfl).2.1 "Tomate Lisa kg",
   (pipeline_no_terms_amended.1 ⟨"Tomate", none, none⟩ rfl).2.2
     (fun _ => [⟨"Tomate Lisa kg", 17950, "kg", "", "Stock"⟩]) "Stock"⟩

/-- The concrete alert computation shared by C5's theorem and counterexample:
previous 20250, current 16500 gives the unrounded change −500/27 ≈ −18.52 and
fires at threshold 15. -/
lemma emitAlert_20250_16500 (product sm : String) :
    emitAlert 15 product sm (some 20250) 16500 =
      some ⟨product, sm, -500/27, 20250, 16500⟩ := by
  have hch : ((((16500 : Int) - 20250 : Int) : ℚ) / ((20250 : Int) : ℚ)) * 100
      = -500/27 := by
    norm_num
  simp only [emitAlert]
  rw [if_neg (by norm_num : ¬ (20250 : Int) = 0), hch,
    if_pos (by rw [abs_of_nonpos (by norm_num)]; norm_num : |(-500/27 : ℚ)| ≥ 15)]

/-- Claim C5, counterexample: the emitted `change_percent` for previous 20250
and current 16500 is the unrounded −500/27 = −18.518…, not −18.5. -/
theorem alert_change_value_counterexample :
    (emitAlert 15 "Tomate Lisa" "Biggie" (some 20250) 16500).map
      (fun a => a.change_percent) ≠ some (-18.5 : ℚ) := by
  rw [emitAlert_20250_16500]
  simp only [Option.map_some, Option.some.injEq, ne_eq]
  norm_num

/-- Claim C5 (corrected): an alert is emitted for a pair exactly when the
absolute percentage change between the previous stored price and today's
deduplicated price meets or exceeds the threshold; for previous 20250 /
current 16500 the change is exactly −500/27 (≈ −18.52, which rounds to −18.5
at one decimal, but is carried unrounded in the event), an alert fires at
threshold 15 and none at threshold 20. -/
theorem alert_threshold_amended :
    (∀ (threshold : ℚ) (product sm : String) (prev cur : Int), 0 < prev →
        ((emitAlert threshold product sm (some prev) cur).isSome ↔
          |(((cur - prev : Int) : ℚ) / ((prev : Int) : ℚ)) * 100| ≥ threshold)) ∧
    (∀ product sm, emitAlert 15 product sm (some 20250) 16500 =
        some ⟨product, sm, -500/27, 20250, 16500⟩) ∧
    (∀ product sm, emitAlert 20 product sm (some 20250) 16500 = none) ∧
    pyRound1 (-500/27) = -18.5 := by
  refine ⟨?_, emitAlert_20250_16500, ?_, ?_⟩
  · intro th product sm prev cur h
    have hnz : ¬ (prev = 0) := by omega
    simp only [emitAlert, if_neg hnz]
    by_cases hc : |(((cur - prev : Int) : ℚ) / ((prev : Int) : ℚ)) * 100| ≥ th
    · simp [hc]
    · simp [hc]
  · intro product sm
    have hch : ((((16500 : Int) - 20250 : Int) : ℚ) / ((20250 : Int) : ℚ)) * 100
        = -500/27 := by
      norm_num
    simp only [emitAlert]
    rw [if_neg (by norm_num : ¬ (20250 : Int) = 0), hch, if_neg]
    rw [abs_of_nonpos (by norm_num)]
    norm_num
  · have hfl : (⌊(-500/27 : ℚ) * 10⌋ : Int) = -186 := by
      norm_num
    simp only [pyRound1, roundHalfEven, hfl]
    rw [if_neg, if_pos]
    · norm_num
    · push_cast
      norm_num
    · push_cast
      norm_num

/-- Witness for C5's amended theorem: the exactly-when condition applied at
previous 20250, current 16500, threshold 15. -/
theorem alert_threshold_amended_witness :
    (0 : Int) < 20250 ∧ (emitAlert 15 "Tomate Lisa" "Biggie" (some 20250)
      16500).isSome := by
  refine ⟨by norm_num, ?_⟩
  rw [(alert_threshold_amended.1 15 "Tomate Lisa" "Biggie" 20250 16500
    (by norm_num))]
  rw [show ((((16500 : Int) - 20250 : Int) : ℚ) / ((20250 : Int) : ℚ)) * 100
    = -500/27 by norm_num]
  rw [abs_of_nonpos (by norm_num)]
  norm_num

/-! ### The dedup loop keeps the per-source minimum -/

/-- Minimum of two optional integers (`none` = no value yet). -/
def optMin : Option Int → Option Int → Option Int
  | none, b => b
  | some a, none => some a
  | some a, some b => some (min a b)

lemma optMin_assoc (a b c : Option Int) :
    optMin (optMin a b) c = optMin a (optMin b c) := by
  cases a <;> cases b <;> cases c <;> simp [optMin, min_assoc]

lemma optMin_none_right (a : Option Int) : optMin a none = a := by
  cases a <;> rfl

lemma head?_toList (o : Option Int) : o.toList.head? = o := by
  cases o <;> rfl

lemma short_list_head (l : List Int) (h : l.length ≤ 1) : l.head?.toList = l := by
  match l with
  | [] => rfl
  | [_] => rfl
  | _ :: _ :: _ => simp at h

lemma listMin_cons (x : Int) (xs : List Int) :
    listMin (x :: xs) = optMin (some x) (listMin xs) := by
  cases h : listMin xs <;> simp [listMin, h, optMin]

/-- Effect of one dict-update step on the rows filtered to one supermarket,
assuming the accumulator holds at most one row for it: for the updated
supermarket the slot becomes the minimum of old slot and new price, any other
supermarket is untouched. -/
lemma updMin_filter (sm : String) (p : PriceRow) :
    ∀ acc : List PriceRow,
      (acc.filter (fun q => q.supermarket == sm)).length ≤ 1 →
      ((updMin acc p).filter (fun q => q.supermarket == sm)).map (fun q => q.price) =
        if p.supermarket == sm then
          (optMin (((acc.filter (fun q => q.supermarket == sm)).map
            (fun q => q.price)).head?) (some p.price)).toList
        else (acc.filter (fun q => q.supermarket == sm)).map (fun q => q.price) := by
  intro acc
  induction acc with
  | nil =>
    intro _
    cases hps : (p.supermarket == sm) <;> simp [updMin, hps, optMin]
  | cons q qs ih =>
    intro h
    simp only [updMin]
    by_cases hqp : q.supermarket = p.supermarket
    · rw [if_pos hqp]
      cases hps : (p.supermarket == sm) with
      | true =>
        have hqs : (q.supermarket == sm) = true := by
          rw [beq_iff_eq] at hps ⊢
          rw [hqp, hps]
        have hqsf : qs.filter (fun r => r.supermarket == sm) = [] := by
          simp only [List.filter_cons, hqs, if_true, List.length_cons] at h
          exact List.eq_nil_of_length_eq_zero (by omega)
        by_cases hlt : p.price < q.price
        · rw [if_pos hlt]
          simp [List.filter_cons, hps, hqs, hqsf, optMin,
            min_eq_right (le_of_lt hlt)]
        · rw [if_neg hlt]
          simp [List.filter_cons, hps, hqs, hqsf, optMin,
            min_eq_left (by omega : q.price ≤ p.price)]
      | false =>
        have hqs : (q.supermarket == sm) = false := by
          rw [beq_eq_false_iff_ne] at hps ⊢
          rw [hqp]
          exact hps
        by_cases hlt : p.price < q.price
        · rw [if_pos hlt]
          simp [List.filter_cons, hps, hqs]
        · rw [if_neg hlt]
          simp [List.filter_cons, hps, hqs]
    · rw [if_neg hqp]
      cases hqs : (q.supermarket == sm) with
      | true =>
        have hps : (p.supermarket == sm) = false := by
          rw [beq_iff_eq] at hqs
          rw [beq_eq_false_iff_ne]
          intro hp
          exact hqp (by rw [hqs, hp])
        have hqsf : qs.filter (fun r => r.supermarket == sm) = [] := by
          simp only [List.filter_cons, hqs, if_true, List.length_cons] at h
          exact List.eq_nil_of_length_eq_zero (by omega)
        have ih2 := ih (by rw [hqsf]; simp)
        rw [hps] at ih2
        simp only [Bool.false_eq_true, if_false] at ih2
        simp [List.filter_cons, hqs, hps, ih2, hqsf]
      | false =>
        have h' : (qs.filter (fun r => r.supermarket == sm)).length ≤ 1 := by
          simp only [List.filter_cons, hqs, Bool.false_eq_true, if_false] at h
          exact h
        have ih2 := ih h'
        cases hps : (p.supermarket == sm) with
        | true =>
          rw [hps, if_pos rfl] at ih2
          simp [List.filter_cons, hqs, hps, ih2]
        | false =>
          rw [hps] at ih2
          simp only [Bool.false_eq_true, if_false] at ih2
          simp [List.filter_cons, hqs, hps, ih2]

/-- One dict-update step preserves the at-most-one-row-per-supermarket
invariant. -/
lemma updMin_inv (sm : String) (p : PriceRow) (acc : List PriceRow)
    (h : (acc.filter (fun q => q.supermarket == sm)).length ≤ 1) :
    ((updMin acc p).filter (fun q => q.supermarket == sm)).length ≤ 1 := by
  have hl : ((updMin acc p).filter (fun q => q.supermarket == sm)).length =
      (((updMin acc p).filter (fun q => q.supermarket == sm)).map
        (fun q => q.price)).length := (List.length_map _ _).symm
  rw [hl, updMin_filter sm p acc h]
  cases hps : (p.supermarket == sm) with
  | true =>
    rw [if_pos rfl]
    cases optMin (((acc.filter (fun q => q.supermarket == sm)).map
      (fun q => q.price)).head?) (some p.price) <;> simp
  | false =>
    rw [if_neg (by simp)]
    rw [List.length_map]
    exact h

/-- The dedup fold, filtered to one supermarket, yields exactly the minimum of
the accumulator slot and all of that supermarket's incoming prices. -/
lemma foldl_updMin (sm : String) (rows : List PriceRow) :
    ∀ acc : List PriceRow,
      (acc.filter (fun q => q.supermarket == sm)).length ≤ 1 →
      ((rows.foldl updMin acc).filter (fun q => q.supermarket == sm)).map
          (fun q => q.price) =
        (optMin (((acc.filter (fun q => q.supermarket == sm)).map
            (fun q => q.price)).head?)
          (listMin ((rows.filter (fun q => q.supermarket == sm)).map
            (fun q => q.price)))).toList := by
  induction rows with
  | nil =>
    intro acc h
    simp only [List.foldl_nil, List.filter_nil, List.map_nil]
    rw [show listMin [] = none from rfl, optMin_none_right]
    exact (short_list_head _ (by rw [List.length_map]; exact h)).symm
  | cons p rows ih =>
    intro acc h
    simp only [List.foldl_cons]
    rw [ih (updMin acc p) (updMin_inv sm p acc h), updMin_filter sm p acc h]
    cases hps : (p.supermarket == sm) with
    | true =>
      rw [if_pos rfl, head?_toList]
      simp only [List.filter_cons, hps, if_true, List.map_cons, listMin_cons]
      rw [optMin_assoc]
    | false =>
      rw [if_neg (by simp)]
      simp only [List.filter_cons, hps, Bool.false_eq_true, if_false]

/-- Claim C4 (confirmed): for every input row list the report builder keeps
exactly one price per source, namely the minimum of that source's prices, and
the reported median is the integer median of the deduplicated per-source
prices; in particular two listings of source A at 16500 and 16800 collapse to
the single 16500 row, whose median is 16500. -/
theorem report_dedup_keeps_min :
    (∀ (rows : List PriceRow) (sm : String),
        ((dedupBySupermarket rows).filter (fun q => q.supermarket == sm)).map
            (fun q => q.price) =
          (listMin ((rows.filter (fun q => q.supermarket == sm)).map
            (fun q => q.price))).toList) ∧
    (∀ rows, reportMedian rows =
        pyMedianInt ((dedupBySupermarket rows).map (fun p => p.price))) ∧
    dedupBySupermarket
        [⟨"A", "Tomate Lisa", 16500, some "Tomate Lisa", "kg"⟩,
         ⟨"A", "Tomate Lisa", 16800, some "Tomate Lisa Extra", "kg"⟩] =
      [⟨"A", "Tomate Lisa", 16500, some "Tomate Lisa", "kg"⟩] ∧
    reportMedian
        [⟨"A", "Tomate Lisa", 16500, some "Tomate Lisa", "kg"⟩,
         ⟨"A", "Tomate Lisa", 16800, some "Tomate Lisa Extra", "kg"⟩] = 16500 := by
  refine ⟨?_, fun rows => rfl, by decide, by decide⟩
  intro rows sm
  have h := foldl_updMin sm rows [] (by simp)
  simpa [dedupBySupermarket, optMin] using h

/-! ### Trend claim -/

/-- Claim C3 (confirmed): the trend over `[today−days, today]` returns
`insufficient_data` (with change 0) whenever fewer than 2 distinct dates are
present; date-averages 20000 at day −6 and 21000 at day 0 classify `up` with
`change_percent = 5`, and a single-day history is `insufficient_data`. -/
theorem trend_window_classification :
    (∀ (db : List PriceFact) (p : String) (today days : Int),
        (windowDates db p today days).length < 2 →
        get_price_trend db p today days = ⟨"insufficient_data", 0, none, none⟩) ∧
    get_price_trend
        [⟨-6, "Stock", "Tomate Lisa", some "Tomate Lisa kg", 20000, "kg"⟩,
         ⟨0, "Stock", "Tomate Lisa", some "Tomate Lisa kg", 21000, "kg"⟩]
        "Tomate Lisa" 0 7 = ⟨"up", 5, some 20000, some 21000⟩ ∧
    get_price_trend [⟨0, "Stock", "Tomate Lisa", some "Tomate Lisa kg", 20000, "kg"⟩]
        "Tomate Lisa" 0 7 = ⟨"insufficient_data", 0, none, none⟩ := by
  refine ⟨?_, ?_, ?_⟩
  · intro db p today days hlen
    rcases hd : windowDates db p today days with _ | ⟨d1, _ | ⟨d2, rest⟩⟩
    · simp [get_price_trend, hd]
    · simp [get_price_trend, hd]
    · rw [hd] at hlen
      simp only [List.length_cons] at hlen
      omega
  · have hw : windowDates
        [⟨-6, "Stock", "Tomate Lisa", some "Tomate Lisa kg", 20000, "kg"⟩,
         ⟨0, "Stock", "Tomate Lisa", some "Tomate Lisa kg", 21000, "kg"⟩]
        "Tomate Lisa" 0 7 = [-6, 0] := by decide
    have h1 : ((windowRows
        [⟨-6, "Stock", "Tomate Lisa", some "Tomate Lisa kg", 20000, "kg"⟩,
         ⟨0, "Stock", "Tomate Lisa", some "Tomate Lisa kg", 21000, "kg"⟩]
        "Tomate Lisa" 0 7).filter (fun f => f.date == (-6 : Int))).map
          (fun f => f.price) = [20000] := by decide
    have h2 : ((windowRows
        [⟨-6, "Stock", "Tomate Lisa", some "Tomate Lisa kg", 20000, "kg"⟩,
         ⟨0, "Stock", "Tomate Lisa", some "Tomate Lisa kg", 21000, "kg"⟩]
        "Tomate Lisa" 0 7).filter (fun f => f.date == (0 : Int))).map
          (fun f => f.price) = [21000] := by decide
    have ha1 : dateAvg
        [⟨-6, "Stock", "Tomate Lisa", some "Tomate Lisa kg", 20000, "kg"⟩,
         ⟨0, "Stock", "Tomate Lisa", some "Tomate Lisa kg", 21000, "kg"⟩]
        "Tomate Lisa" 0 7 (-6) = 20000 := by
      simp only [dateAvg, h1]
      norm_num
    have ha2 : dateAvg
        [⟨-6, "Stock", "Tomate Lisa", some "Tomate Lisa kg", 20000, "kg"⟩,
         ⟨0, "Stock", "Tomate Lisa", some "Tomate Lisa kg", 21000, "kg"⟩]
        "Tomate Lisa" 0 7 0 = 21000 := by
      simp only [dateAvg, h2]
      norm_num
    simp only [get_price_trend, hw]
    rw [show ([(0 : Int)].getLastD 0) = 0 from rfl, ha1, ha2]
    rw [show (((21000 : ℚ) - 20000) / 20000) * 100 = 5 by norm_num]
    rw [if_pos (by norm_num : (5 : ℚ) > 2)]
    simp only [TrendResult.mk.injEq]
    refine ⟨trivial, ?_, ?_, ?_⟩
    · simp only [pyRound1, roundHalfEven]
      rw [show ((5 : ℚ) * 10) = 50 by norm_num,
        show (⌊(50 : ℚ)⌋ : Int) = 50 by norm_num]
      rw [if_pos (by push_cast; norm_num)]
      push_cast
      norm_num
    · simp only [pyInt]
      rw [if_pos (by norm_num : (0 : ℚ) ≤ 20000)]
      norm_num
    · simp only [pyInt]
      rw [if_pos (by norm_num : (0 : ℚ) ≤ 21000)]
      norm_num
  · have hw : windowDates
        [⟨0, "Stock", "Tomate Lisa", some "Tomate Lisa kg", 20000, "kg"⟩]
        "Tomate Lisa" 0 7 = [0] := by decide
    simp [get_price_trend, hw]

/-- Witness for C3's insufficient-data conjunct at a concrete single-day
store. -/
theorem trend_window_classification_witness :
    (windowDates [⟨0, "Biggie", "Locote Rojo", some "Locote", 28000, "kg"⟩]
        "Locote Rojo" 0 7).length < 2 ∧
    get_price_trend [⟨0, "Biggie", "Locote Rojo", some "Locote", 28000, "kg"⟩]
        "Locote Rojo" 0 7 = ⟨"insufficient_data", 0, none, none⟩ :=
  ⟨by decide, trend_window_classification.1 _ _ _ _ (by decide)⟩
